import Mathlib

/-!
Verification of the gene-ontology-term-mapper core pipeline: a shallow
embedding of the fetch / filter / aggregate logic found in
`go_term_fetcher.py` and `service.py`, together with theorems settling the
documented behavioural properties.

The network boundary is modelled as an oracle mapping a request to an HTTP
response; the asynchronous gather over per-identifier fetch tasks is
modelled by an explicit completion order (a permutation of the task
indices) threading writes through an insertion-ordered association list,
which is the Python dict discipline (later writes overwrite, original key
position kept, new keys appended).
-/

set_option autoImplicit false

/-- The `GO_CATEGORIES` dict of `go_term_fetcher.py`: category code to
GO aspect string. -/
def GO_CATEGORIES : List (String × String) :=
  [("BP", "biological_process"), ("MF", "molecular_function"), ("CC", "cellular_component")]

/-- The `Annotation` pydantic model of `go_term_fetcher.py`: twelve
independently optional string fields. -/
structure Annotation where
  id : Option String
  geneProductId : Option String
  qualifier : Option String
  goId : Option String
  goAspect : Option String
  goEvidence : Option String
  goName : Option String
  assignedBy : Option String
  symbol : Option String
  synonyms : Option String
  name : Option String
  reference : Option String
deriving DecidableEq, Repr

/-- `filter_by_category` of `go_term_fetcher.py`: if the category code is
not a key of `GO_CATEGORIES` the input is returned unchanged, otherwise
the list is narrowed to the records whose `goAspect` equals the mapped
aspect string. -/
def filter_by_category (go_terms : List Annotation ) (category : String) : List Annotation :=
  match GO_CATEGORIES.lookup category with
  | none => go_terms
  | some aspect => go_terms.filter (fun t => t.goAspect == some aspect)

/-- A raw JSON object of the `results` array, as a key/value listing; the
pydantic decoding `Annotation(**d)` reads each declared field by key,
ignores unknown keys and defaults missing keys to absent. -/
abbrev RawRecord : Type := List (String × String)

/-- Field-by-field decoding of one raw result object into an `Annotation`
record (the `Annotation(**d)` step of `fetch_go_terms`). -/
def decodeRecord (d : RawRecord ) : Annotation :=
  ⟨d.lookup "id", d.lookup "geneProductId", d.lookup "qualifier", d.lookup "goId",
   d.lookup "goAspect", d.lookup "goEvidence", d.lookup "goName", d.lookup "assignedBy",
   d.lookup "symbol", d.lookup "synonyms", d.lookup "name", d.lookup "reference"⟩

/-- Sample record with the biological-process aspect. -/
def annBP : Annotation :=
  ⟨some "a1", none, none, some "GO:0006103", some "biological_process",
   none, none, none, none, none, none, none⟩

/-- Sample record with the molecular-function aspect. -/
def annMF : Annotation :=
  ⟨some "a2", none, none, some "GO:0003824", some "molecular_function",
   none, none, none, none, none, none, none⟩

/-- Sample record with no aspect at all. -/
def annNoAspect : Annotation :=
  ⟨some "a3", none, none, some "GO:0000001", none,
   none, none, none, none, none, none, none⟩

/-- C2: for every category code outside the three recognized ones,
`filter_by_category` is the identity on the input sequence: same
elements, same order, and no error. -/
theorem filter_by_category_unrecognized_id (ts : List Annotation ) (c : String)
    (h1 : c ≠ "BP") (h2 : c ≠ "MF") (h3 : c ≠ "CC") :
    filter_by_category ts c = ts := by
  have b1 : (c == "BP") = false := beq_eq_false_iff_ne.mpr h1
  have b2 : (c == "MF") = false := beq_eq_false_iff_ne.mpr h2
  have b3 : (c == "CC") = false := beq_eq_false_iff_ne.mpr h3
  have hl : GO_CATEGORIES.lookup c = none := by
    simp [GO_CATEGORIES, List.lookup, b1, b2, b3]
  simp [filter_by_category, hl]

/-- Witness for C2 at the concrete unrecognized code "XX". -/
theorem filter_by_category_unrecognized_id_w :
    filter_by_category [annBP, annMF] "XX" = [annBP, annMF] :=
  filter_by_category_unrecognized_id [annBP, annMF] "XX"
    (by decide) (by decide) (by decide)

/-- Helper: under a recognized category code mapped to aspect `a`, the
filter is the list filter by the aspect predicate. -/
theorem filter_by_category_eq_filter (ts : List Annotation ) (c a : String)
    (h : GO_CATEGORIES.lookup c = some a) :
    filter_by_category ts c = ts.filter (fun t => t.goAspect == some a) := by
  simp [filter_by_category, h]

/-- C3: for a recognized category code mapped to aspect `a`,
`filter_by_category` returns exactly the order-preserving subsequence of
records whose `goAspect` equals `a`: it is the list filter by that
predicate, a sublist of the input, every output record carries aspect
`a`, and every input record carrying aspect `a` appears in the output. -/
theorem filter_by_category_recognized_exact (ts : List Annotation ) (c a : String)
    (h : GO_CATEGORIES.lookup c = some a) :
    filter_by_category ts c = ts.filter (fun t => t.goAspect == some a) ∧
    (filter_by_category ts c).Sublist ts ∧
    (∀ t ∈ filter_by_category ts c, t.goAspect = some a) ∧
    (∀ t ∈ ts, t.goAspect = some a → t ∈ filter_by_category ts c) := by
  have he := filter_by_category_eq_filter ts c a h
  refine ⟨he, ?_, ?_, ?_⟩
  · rw [he]; exact List.filter_sublist ts
  · intro t ht
    rw [he] at ht
    have := (List.mem_filter.mp ht).2
    simpa using this
  · intro t ht ha
    rw [he]
    exact List.mem_filter.mpr ⟨ht, by simpa using ha⟩

/-- Witness for C3 at code "BP" on a concrete mixed list. -/
theorem filter_by_category_recognized_exact_w :
    GO_CATEGORIES.lookup "BP" = some "biological_process" ∧
    filter_by_category [annBP, annMF, annBP] "BP" =
      List.filter (fun t => t.goAspect == some "biological_process") [annBP, annMF, annBP] :=
  ⟨by decide,
   (filter_by_category_recognized_exact [annBP, annMF, annBP] "BP" "biological_process"
     (by decide)).1⟩

/-- C9: under any recognized category code, a record whose `goAspect` is
absent never appears in the output of `filter_by_category`; such records
are silently dropped, not passed through and not an error. -/
theorem filter_by_category_drops_absent_aspect (ts : List Annotation ) (c : String)
    (hc : c = "BP" ∨ c = "MF" ∨ c = "CC") :
    ∀ t ∈ filter_by_category ts c, t.goAspect ≠ none := by
  have hx : ∃ a, GO_CATEGORIES.lookup c = some a := by
    rcases hc with h | h | h <;> subst h
    · exact ⟨"biological_process", by decide⟩
    · exact ⟨"molecular_function", by decide⟩
    · exact ⟨"cellular_component", by decide⟩
  rcases hx with ⟨a, ha⟩
  intro t ht
  rw [filter_by_category_eq_filter ts c a ha] at ht
  have := (List.mem_filter.mp ht).2
  simp only [beq_iff_eq] at this
  simp [this]

/-- Witness for C9: the aspect-less sample record is dropped by the "BP"
filter on a concrete list containing it. -/
theorem filter_by_category_drops_absent_aspect_w :
    annNoAspect ∉ filter_by_category [annNoAspect, annBP] "BP" := fun hmem =>
  filter_by_category_drops_absent_aspect [annNoAspect, annBP] "BP" (Or.inl rfl)
    annNoAspect hmem rfl

/-- C10: `filter_by_category` is idempotent for every category string,
recognized or not. -/
theorem filter_by_category_idempotent (ts : List Annotation ) (c : String) :
    filter_by_category (filter_by_category ts c) c = filter_by_category ts c := by
  unfold filter_by_category
  match GO_CATEGORIES.lookup c with
  | none => rfl
  | some aspect =>
      simp [List.filter_filter]

/-- The outbound HTTP request built by `fetch_go_terms`: fixed endpoint
URL plus the two query parameters of the `params` dict. -/
structure FetchRequest where
  url : String
  geneProductId : String
  limit : Nat
deriving DecidableEq, Repr

/-- The parsed JSON body of a response; `results` is absent when the
object has no "results" key (the `data["results"]` access raises). -/
structure JsonBody where
  results : Option (List RawRecord )
deriving DecidableEq, Repr

/-- An HTTP response from the external service: a status code and a body
that is `none` when it is not parseable as JSON (`resp.json()` raises). -/
structure HttpResponse where
  status : Nat
  body : Option JsonBody
deriving DecidableEq, Repr

/-- The exceptions `fetch_go_terms` can raise: `raise_for_status` on a
non-success status, a JSON decode failure, or a missing-key access. -/
inductive FetchError where
  | httpStatusError (code : Nat)
  | jsonDecodeError
  | keyError (key : String)
deriving DecidableEq, Repr

/-- Construction of the request in `fetch_go_terms`: the fixed QuickGO
URL with `geneProductId = "UniProtKB:" + uniprot_id` and `limit = 100`. -/
def fetch_request (uniprot_id : String) : FetchRequest :=
  ⟨"https://www.ebi.ac.uk/QuickGO/services/annotation/search",
   "UniProtKB:" ++ uniprot_id, 100⟩

/-- httpx success test: `raise_for_status` passes exactly on 2xx. -/
def is_success (status : Nat) : Bool := 200 ≤ status && status < 300

/-- `fetch_go_terms` of `go_term_fetcher.py`, with the network modelled
as an oracle from request to response: raise on non-success status, then
on unparseable JSON, then on a missing "results" key; otherwise decode
each element of the `results` array into an `Annotation` record. -/
def fetch_go_terms (net : FetchRequest → HttpResponse) (uniprot_id : String) :
    Except FetchError (List Annotation ) :=
  let resp := net (fetch_request uniprot_id)
  if is_success resp.status then
    match resp.body with
    | none => .error .jsonDecodeError
    | some data =>
      match data.results with
      | none => .error (.keyError "results")
      | some rs => .ok (rs.map decodeRecord)
  else .error (.httpStatusError resp.status)

/-- The `fetch_and_filter` inner coroutine of `map_go_terms`: fetch, then
filter only when the request category is truthy (present and non-empty);
a fetch exception propagates unchanged. -/
def fetch_and_filter (net : FetchRequest → HttpResponse) (category : Option String)
    (uid : String) : Except FetchError (List Annotation ) :=
  match fetch_go_terms net uid with
  | .error e => .error e
  | .ok terms =>
      .ok (match category with
           | none => terms
           | some c => if c = "" then terms else filter_by_category terms c)

/-- C8: for every identifier string (verbatim, with no validation), the
issued query carries `geneProductId = "UniProtKB:" + id`, a result cap of
exactly 100 records, and the fixed endpoint URL. -/
theorem fetch_request_built_verbatim (uniprot_id : String) :
    (fetch_request uniprot_id).geneProductId = "UniProtKB:" ++ uniprot_id ∧
    (fetch_request uniprot_id).limit = 100 ∧
    (fetch_request uniprot_id).url =
      "https://www.ebi.ac.uk/QuickGO/services/annotation/search" :=
  ⟨rfl, rfl, rfl⟩

/-- C7: `fetch_go_terms` fails (returns no record list) exactly when the
response has a non-success status, an unparseable body, or a body without
the "results" key; and such a failure propagates through the aggregation
task `fetch_and_filter` unchanged (no retry, no swallowing). -/
theorem fetch_go_terms_failure_iff (net : FetchRequest → HttpResponse) (uid : String) :
    ((∃ e, fetch_go_terms net uid = .error e) ↔
      (is_success (net (fetch_request uid)).status = false ∨
       (net (fetch_request uid)).body = none ∨
       ∃ b, (net (fetch_request uid)).body = some b ∧ b.results = none)) ∧
    (∀ e category, fetch_go_terms net uid = .error e →
      fetch_and_filter net category uid = .error e) := by
  constructor
  · cases hs : is_success (net (fetch_request uid)).status with
    | false => simp [fetch_go_terms, hs]
    | true =>
      cases hb : (net (fetch_request uid)).body with
      | none => simp [fetch_go_terms, hs, hb]
      | some b =>
        cases hr : b.results with
        | none => simp [fetch_go_terms, hs, hb, hr]
        | some rs => simp [fetch_go_terms, hs, hb, hr]
  · intro e category hf
    simp [fetch_and_filter, hf]

/-- Python dict write `results[uid] = v`: overwrite in place when the key
exists, append otherwise (insertion-ordered, unique keys). -/
def dictInsert (m : List (String × List Annotation )) (k : String)
    (v : List Annotation ) : List (String × List Annotation ) :=
  if m.any (fun p => p.1 == k) then
    m.map (fun p => if p.1 == k then (k, v) else p)
  else m ++ [(k, v)]

/-- The `asyncio.gather` over the `fetch_and_filter` tasks of
`map_go_terms`, run along an explicit completion order of task indices:
each completed task `i` writes its result under key `ids[i]`; the first
task failure makes the whole run fail with that exception and no mapping
is delivered. -/
def run_gather (net : Nat → FetchRequest → HttpResponse) (category : Option String)
    (ids : List String) :
    List Nat → List (String × List Annotation ) →
      Except FetchError (List (String × List Annotation ))
  | [], acc => .ok acc
  | i :: rest, acc =>
    match ids[i]? with
    | none => run_gather net category ids rest acc
    | some uid =>
      match fetch_and_filter (net i) category uid with
      | .error e => .error e
      | .ok v => run_gather net category ids rest (dictInsert acc uid v)

/-- `map_go_terms` of `service.py`: gather all per-identifier tasks
(under some completion order) into the `results` mapping, starting from
the empty dict. -/
def map_go_terms (net : Nat → FetchRequest → HttpResponse) (ids : List String)
    (category : Option String) (order : List Nat) :
    Except FetchError (List (String × List Annotation )) :=
  run_gather net category ids order []

/-- Helper: if some task index in the completion order has a failing
`fetch_and_filter`, the gather run fails whatever the accumulator. -/
theorem run_gather_error_of_failed_task (net : Nat → FetchRequest → HttpResponse)
    (category : Option String) (ids : List String) (i : Nat) (uid : String)
    (e : FetchError) :
    ∀ (order : List Nat) (acc : List (String × List Annotation )),
      i ∈ order → ids[i]? = some uid →
      fetch_and_filter (net i) category uid = .error e →
      ∃ e2, run_gather net category ids order acc = .error e2 := by
  intro order
  induction order with
  | nil =>
    intro acc hmem hget hfail
    exact absurd hmem (List.not_mem_nil i)
  | cons j rest ih =>
    intro acc hmem hget hfail
    by_cases hij : i = j
    · subst hij
      simp only [run_gather, hget, hfail]
      exact ⟨e, rfl⟩
    · have hirest : i ∈ rest := by
        rcases List.mem_cons.mp hmem with h | h
        · exact absurd h hij
        · exact h
      cases hj : ids[j]? with
      | none =>
        simp only [run_gather, hj]
        exact ih acc hirest hget hfail
      | some uidj =>
        cases hf : fetch_and_filter (net j) category uidj with
        | error e3 =>
          simp only [run_gather, hj, hf]
          exact ⟨e3, rfl⟩
        | ok v =>
          simp only [run_gather, hj, hf]
          exact ih (dictInsert acc uidj v) hirest hget hfail

/-- C1: if the fetch of any one identifier of the batch fails, the whole
`map_go_terms` aggregation fails for every completion order of the tasks:
no partial mapping is returned. -/
theorem map_go_terms_all_or_nothing (net : Nat → FetchRequest → HttpResponse)
    (ids : List String) (category : Option String) (order : List Nat)
    (i : Nat) (e : FetchError)
    (hperm : order.Perm (List.range ids.length))
    (hi : i < ids.length)
    (hfail : fetch_go_terms (net i) ids[i] = .error e) :
    ∃ e2, map_go_terms net ids category order = .error e2 := by
  have hmem : i ∈ order := hperm.mem_iff.mpr (List.mem_range.mpr hi)
  have hget : ids[i]? = some ids[i] := List.getElem?_eq_getElem hi
  have hff : fetch_and_filter (net i) category ids[i] = .error e := by
    simp [fetch_and_filter, hfail]
  exact run_gather_error_of_failed_task net category ids i ids[i] e order [] hmem hget hff

/-- Sample raw result records used by the concrete witnesses. -/
def rec1 : RawRecord := [("goId", "GO:0000001"), ("goAspect", "biological_process")]

/-- Second sample raw record. -/
def rec2 : RawRecord := [("goId", "GO:0000002"), ("goAspect", "molecular_function")]

/-- Third sample raw record. -/
def rec3 : RawRecord := [("goId", "GO:0000003")]

/-- A parseable 200 response whose body holds the given results array. -/
def okResponse (rs : List RawRecord ) : HttpResponse := ⟨200, some ⟨some rs⟩⟩

/-- A failing response: HTTP 404 with an unparseable body. -/
def errResponse : HttpResponse := ⟨404, none⟩

/-- Concrete network for the C1 witness: task 1 gets a 404. -/
def netFail : Nat → FetchRequest → HttpResponse :=
  fun i _ => if i = 1 then errResponse else okResponse [rec1]

/-- Witness for C1: with task 1 answered by a 404, the two-identifier
batch fails as a whole. -/
theorem map_go_terms_all_or_nothing_w :
    ∃ e2, map_go_terms netFail ["P1", "P2"] none [0, 1] = .error e2 :=
  map_go_terms_all_or_nothing netFail ["P1", "P2"] none [0, 1] 1 (.httpStatusError 404)
    (by decide) (by decide) (by rfl)

/-- C4: aggregating an empty identifier list yields the empty mapping for
every category and every completion order, and the outcome is the same
under every network oracle: no fetch is performed. -/
theorem map_go_terms_empty (net net2 : Nat → FetchRequest → HttpResponse)
    (category : Option String) (order : List Nat) :
    map_go_terms net [] category order = .ok [] ∧
    map_go_terms net [] category order = map_go_terms net2 [] category order := by
  have key : ∀ (n : Nat → FetchRequest → HttpResponse) (o : List Nat),
      run_gather n category [] o [] = .ok [] := by
    intro n o
    induction o with
    | nil => rfl
    | cons j rest ih =>
      simp only [run_gather, List.getElem?_nil]
      exact ih
  exact ⟨key net order, (key net order).trans (key net2 order).symm⟩

/-- Helper: a completion order that is a permutation of the two task
indices 0 and 1 is one of the two concrete interleavings. -/
theorem perm_pair_cases (order : List Nat) (h : order.Perm [0, 1]) :
    order = [0, 1] ∨ order = [1, 0] := by
  have hlen : order.length = 2 := h.length_eq
  obtain ⟨x, y, rfl⟩ : ∃ x y, order = [x, y] := by
    match order, hlen with
    | [x, y], _ => exact ⟨x, y, rfl⟩
  have h0 : (0 : Nat) ∈ [x, y] := h.mem_iff.mpr (by simp)
  have h1 : (1 : Nat) ∈ [x, y] := h.mem_iff.mpr (by simp)
  simp only [List.mem_cons, List.not_mem_nil, or_false] at h0 h1
  rcases h0 with h0 | h0 <;> rcases h1 with h1 | h1
  · exfalso; omega
  · left; rw [← h0, ← h1]
  · right; rw [← h0, ← h1]
  · exfalso; omega

/-- C5: aggregating the duplicated batch `[id1, id1]` with no category
yields, under every completion order of the two tasks, a mapping with the
single key `id1` holding the result of the task that completed last:
duplicates are fetched twice, not deduplicated, and the later write
overwrites the earlier one. -/
theorem map_go_terms_duplicate_last_wins (net : Nat → FetchRequest → HttpResponse)
    (id1 : String) (order : List Nat) (v0 v1 : List Annotation )
    (hperm : order.Perm [0, 1])
    (h0 : fetch_go_terms (net 0) id1 = .ok v0)
    (h1 : fetch_go_terms (net 1) id1 = .ok v1) :
    (order = [0, 1] ∧ map_go_terms net [id1, id1] none order = .ok [(id1, v1)]) ∨
    (order = [1, 0] ∧ map_go_terms net [id1, id1] none order = .ok [(id1, v0)]) := by
  have hf0 : fetch_and_filter (net 0) none id1 = .ok v0 := by
    simp [fetch_and_filter, h0]
  have hf1 : fetch_and_filter (net 1) none id1 = .ok v1 := by
    simp [fetch_and_filter, h1]
  rcases perm_pair_cases order hperm with ho | ho <;> subst ho
  · left
    exact ⟨rfl, by simp [map_go_terms, run_gather, hf0, hf1, dictInsert]⟩
  · right
    exact ⟨rfl, by simp [map_go_terms, run_gather, hf0, hf1, dictInsert]⟩

/-- Concrete network for the C5 witness: task 0 and task 1 answer with
different result arrays for the same identifier. -/
def netDup : Nat → FetchRequest → HttpResponse :=
  fun i _ => if i = 0 then okResponse [rec1] else okResponse [rec2]

/-- Witness for C5: with completion order `[1, 0]` the value kept under
the single key is the one fetched by task 0, which completed last. -/
theorem map_go_terms_duplicate_last_wins_w :
    map_go_terms netDup ["P1", "P1"] none [1, 0] = .ok [("P1", [decodeRecord rec1])] := by
  rcases map_go_terms_duplicate_last_wins netDup "P1" [1, 0]
      [decodeRecord rec1] [decodeRecord rec2] (by decide) (by rfl) (by rfl) with
    ⟨ho, _⟩ | ⟨_, hres⟩
  · exact absurd ho (by decide)
  · exact hres

/-- C6: for two distinct identifiers whose fetches succeed with 3 and 5
records respectively, the aggregated mapping holds exactly those two
entries whatever the completion order of the two tasks: the mapping (as a
set of key/value entries) is independent of completion order. -/
theorem map_go_terms_order_independent (net : Nat → FetchRequest → HttpResponse)
    (ida idb : String) (order : List Nat) (va vb : List Annotation )
    (hne : ida ≠ idb)
    (hperm : order.Perm [0, 1])
    (ha : fetch_go_terms (net 0) ida = .ok va)
    (hb : fetch_go_terms (net 1) idb = .ok vb)
    (hla : va.length = 3) (hlb : vb.length = 5) :
    ∃ m, map_go_terms net [ida, idb] none order = .ok m ∧
      m.Perm [(ida, va), (idb, vb)] := by
  have hfa : fetch_and_filter (net 0) none ida = .ok va := by
    simp [fetch_and_filter, ha]
  have hfb : fetch_and_filter (net 1) none idb = .ok vb := by
    simp [fetch_and_filter, hb]
  have hba : (ida == idb) = false := beq_eq_false_iff_ne.mpr hne
  have hab : (idb == ida) = false := beq_eq_false_iff_ne.mpr (Ne.symm hne)
  rcases perm_pair_cases order hperm with ho | ho <;> subst ho
  · refine ⟨[(ida, va), (idb, vb)], ?_, List.Perm.refl _⟩
    simp [map_go_terms, run_gather, hfa, hfb, dictInsert, hba]
  · refine ⟨[(idb, vb), (ida, va)], ?_, List.Perm.swap (ida, va) (idb, vb) []⟩
    simp [map_go_terms, run_gather, hfa, hfb, dictInsert, hab]

/-- Raw records for the three-record response of the C6 witness. -/
def recsA : List RawRecord := [rec1, rec2, rec3]

/-- Raw records for the five-record response of the C6 witness. -/
def recsB : List RawRecord :=
  [[("goId", "GO:0000004")], [("goId", "GO:0000005")], [("goId", "GO:0000006")],
   [("goId", "GO:0000007")], [("goId", "GO:0000008")]]

/-- Concrete network for the C6 witness: task 0 resolves to 3 records,
task 1 to 5 records. -/
def netAB : Nat → FetchRequest → HttpResponse :=
  fun i _ => if i = 0 then okResponse recsA else okResponse recsB

/-- Witness for C6 under the reversed completion order `[1, 0]`. -/
theorem map_go_terms_order_independent_w :
    ∃ m, map_go_terms netAB ["P1", "P2"] none [1, 0] = .ok m ∧
      m.Perm [("P1", recsA.map decodeRecord), ("P2", recsB.map decodeRecord)] :=
  map_go_terms_order_independent netAB "P1" "P2" [1, 0]
    (recsA.map decodeRecord) (recsB.map decodeRecord)
    (by decide) (by decide) (by rfl) (by rfl) (by decide) (by decide)
